import Mathlib

/-
Verification of the incremental aggregation-and-refresh engine of
src/consumers/project_consumer_sruiz.py.

The consumer keeps two module-level defaultdicts, author_counts
(defaultdict(int)) and author_sentiments (defaultdict(list)); each
incoming Kafka payload is parsed with json.loads, the author and
message fields are extracted with dict.get defaults, the message is
scored with TextBlob, both tables are updated, and two matplotlib
panels are redrawn.  json.loads, TextBlob and the matplotlib backend
are external collaborators; they are modelled as oracle inputs.
Python dicts preserve insertion order, which the assoc-list model
reproduces exactly; exceptions are modelled with Except.
-/

/-- Python values that json.loads can produce (None, bool, number,
string, list, dict with string keys).  process_message uses the raw
value of the author field as the defaultdict key, which succeeds for
the hashable values (None, bool, number, string) and raises TypeError
in hash() for a list or a dict. -/
inductive JValue where
  | jnull
  | jbool (b : Bool)
  | jnum (q : ℚ)
  | jstr (s : String)
  | jarr (xs : List JValue)
  | jobj (fs : List (String × JValue))

namespace JValue

mutual

/-- Decidable equality on JValue, written by hand because the nested
List occurrences defeat the automatic derivation. -/
def decEqVal : (a b : JValue) → Decidable (a = b)
  | .jnull, .jnull => .isTrue rfl
  | .jbool a, .jbool b =>
    match decEq a b with
    | .isTrue h => .isTrue (by rw [h])
    | .isFalse h => .isFalse (by intro g; cases g; exact h rfl)
  | .jnum a, .jnum b =>
    match decEq a b with
    | .isTrue h => .isTrue (by rw [h])
    | .isFalse h => .isFalse (by intro g; cases g; exact h rfl)
  | .jstr a, .jstr b =>
    match decEq a b with
    | .isTrue h => .isTrue (by rw [h])
    | .isFalse h => .isFalse (by intro g; cases g; exact h rfl)
  | .jarr xs, .jarr ys =>
    match decEqList xs ys with
    | .isTrue h => .isTrue (by rw [h])
    | .isFalse h => .isFalse (by intro g; cases g; exact h rfl)
  | .jobj fs, .jobj gs =>
    match decEqFields fs gs with
    | .isTrue h => .isTrue (by rw [h])
    | .isFalse h => .isFalse (by intro g; cases g; exact h rfl)
  | .jnull, .jbool _ => .isFalse (by intro h; cases h)
  | .jnull, .jnum _ => .isFalse (by intro h; cases h)
  | .jnull, .jstr _ => .isFalse (by intro h; cases h)
  | .jnull, .jarr _ => .isFalse (by intro h; cases h)
  | .jnull, .jobj _ => .isFalse (by intro h; cases h)
  | .jbool _, .jnull => .isFalse (by intro h; cases h)
  | .jbool _, .jnum _ => .isFalse (by intro h; cases h)
  | .jbool _, .jstr _ => .isFalse (by intro h; cases h)
  | .jbool _, .jarr _ => .isFalse (by intro h; cases h)
  | .jbool _, .jobj _ => .isFalse (by intro h; cases h)
  | .jnum _, .jnull => .isFalse (by intro h; cases h)
  | .jnum _, .jbool _ => .isFalse (by intro h; cases h)
  | .jnum _, .jstr _ => .isFalse (by intro h; cases h)
  | .jnum _, .jarr _ => .isFalse (by intro h; cases h)
  | .jnum _, .jobj _ => .isFalse (by intro h; cases h)
  | .jstr _, .jnull => .isFalse (by intro h; cases h)
  | .jstr _, .jbool _ => .isFalse (by intro h; cases h)
  | .jstr _, .jnum _ => .isFalse (by intro h; cases h)
  | .jstr _, .jarr _ => .isFalse (by intro h; cases h)
  | .jstr _, .jobj _ => .isFalse (by intro h; cases h)
  | .jarr _, .jnull => .isFalse (by intro h; cases h)
  | .jarr _, .jbool _ => .isFalse (by intro h; cases h)
  | .jarr _, .jnum _ => .isFalse (by intro h; cases h)
  | .jarr _, .jstr _ => .isFalse (by intro h; cases h)
  | .jarr _, .jobj _ => .isFalse (by intro h; cases h)
  | .jobj _, .jnull => .isFalse (by intro h; cases h)
  | .jobj _, .jbool _ => .isFalse (by intro h; cases h)
  | .jobj _, .jnum _ => .isFalse (by intro h; cases h)
  | .jobj _, .jstr _ => .isFalse (by intro h; cases h)
  | .jobj _, .jarr _ => .isFalse (by intro h; cases h)

/-- Decidable equality on lists of JValue. -/
def decEqList : (xs ys : List JValue) → Decidable (xs = ys)
  | [], [] => .isTrue rfl
  | [], _ :: _ => .isFalse (by intro h; cases h)
  | _ :: _, [] => .isFalse (by intro h; cases h)
  | x :: xs, y :: ys =>
    match decEqVal x y, decEqList xs ys with
    | .isTrue h1, .isTrue h2 => .isTrue (by rw [h1, h2])
    | .isFalse h1, _ => .isFalse (by intro g; cases g; exact h1 rfl)
    | _, .isFalse h2 => .isFalse (by intro g; cases g; exact h2 rfl)

/-- Decidable equality on JSON object field lists. -/
def decEqFields : (fs gs : List (String × JValue)) → Decidable (fs = gs)
  | [], [] => .isTrue rfl
  | [], _ :: _ => .isFalse (by intro h; cases h)
  | _ :: _, [] => .isFalse (by intro h; cases h)
  | (k, v) :: fs, (l, w) :: gs =>
    match decEq k l, decEqVal v w, decEqFields fs gs with
    | .isTrue h0, .isTrue h1, .isTrue h2 => .isTrue (by rw [h0, h1, h2])
    | .isFalse h0, _, _ => .isFalse (by intro g; cases g; exact h0 rfl)
    | _, .isFalse h1, _ => .isFalse (by intro g; cases g; exact h1 rfl)
    | _, _, .isFalse h2 => .isFalse (by intro g; cases g; exact h2 rfl)

end

instance : DecidableEq JValue := decEqVal

end JValue

/-- Severity levels of the logger calls that appear in the consumer. -/
inductive LogLevel where
  | debug
  | info
  | warning
  | error
deriving DecidableEq

/-- One constructor per logger call site in process_message and in the
polling part of main, identified by call site rather than by the
formatted text of the f-string. -/
inductive LogEvent where
  | rawMessage
  | processedJson
  | sentimentScore
  | updatedCounts
  | chartsUpdated
  | expectedDict
  | invalidJson
  | processingFailed
  | receivedMessage
  | interruptedByUser
  | consumingFailed
  | consumerClosed
deriving DecidableEq

/-- Severity of each logger call site, read off the source. -/
def LogEvent.level : LogEvent → LogLevel
  | .rawMessage => .debug
  | .processedJson => .info
  | .sentimentScore => .info
  | .updatedCounts => .info
  | .chartsUpdated => .info
  | .expectedDict => .error
  | .invalidJson => .error
  | .processingFailed => .error
  | .receivedMessage => .debug
  | .interruptedByUser => .warning
  | .consumingFailed => .error
  | .consumerClosed => .info

/-- Boolean test for an error-level log event. -/
def LogEvent.isErrorLevel (e : LogEvent) : Bool :=
  match e with
  | .expectedDict => true
  | .invalidJson => true
  | .processingFailed => true
  | .consumingFailed => true
  | _ => false

/-- Number of error-level entries in a log. -/
def errorLogCount (logs : List LogEvent) : ℕ :=
  (logs.filter LogEvent.isErrorLevel).length

/-- Successful redraws of the two matplotlib panels, recording the data
handed to the backend: update_chart passes the author keys and counts,
update_sentiment_chart passes the author keys and average sentiments. -/
inductive RenderEvent where
  | countChart (authors : List JValue) (counts : List ℕ)
  | sentimentChart (authors : List JValue) (avgs : List ℚ)
deriving DecidableEq

/-- State of the consumer process: the two module-level defaultdicts as
insertion-ordered association lists, plus the observable log and render
histories.  author_counts is defaultdict(int), author_sentiments is
defaultdict(list). -/
structure ConsumerState where
  author_counts : List (JValue × ℕ)
  author_sentiments : List (JValue × List ℚ)
  logs : List LogEvent
  renders : List RenderEvent
deriving DecidableEq

/-- Both defaultdicts are created empty at module load. -/
def initState : ConsumerState :=
  { author_counts := [], author_sentiments := [], logs := [], renders := [] }

/-- Append one log entry. -/
def logAdd (st : ConsumerState) (e : LogEvent) : ConsumerState :=
  { st with logs := st.logs ++ [e] }

/-- Python dict lookup on an insertion-ordered association list with
structurally compared keys, used for the string-keyed dicts produced
by json.loads (Python string equality is structural).  First matching
key wins; keys are unique in dicts built by json.loads. -/
def pyLookup [DecidableEq κ] (t : List (κ × α)) (k : κ) : Option α :=
  match t with
  | [] => none
  | (k2, v) :: rest => if k2 = k then some v else pyLookup rest k

/-- Python dict.get with a default, on a string-keyed dict. -/
def pyGet [DecidableEq κ] (t : List (κ × α)) (k : κ) (d : α) : α :=
  match pyLookup t k with
  | some v => v
  | none => d

/-- Hashability of a JSON-derived Python value.  None, booleans,
numbers and strings are hashable; for a list or a dict, hash() raises
TypeError, so author_sentiments[author] raises before any mutation
when the author value is a list or a dict. -/
def JValue.hashable : JValue → Bool
  | .jnull => true
  | .jbool _ => true
  | .jnum _ => true
  | .jstr _ => true
  | .jarr _ => false
  | .jobj _ => false

/-- Python == on the hashable JSON-derived values, the relation that
dict keying uses.  bool is a subclass of int, so True == 1 and
False == 0; numbers compare by value; strings structurally; None only
to itself.  Lists and dicts never reach a key position (hash() raises
first), so they are related to nothing here. -/
def pyKeyEq : JValue → JValue → Bool
  | .jnull, .jnull => true
  | .jbool b1, .jbool b2 => decide (b1 = b2)
  | .jbool b1, .jnum q => decide ((if b1 then (1 : ℚ) else 0) = q)
  | .jnum q, .jbool b2 => decide (q = if b2 then (1 : ℚ) else 0)
  | .jnum q1, .jnum q2 => decide (q1 = q2)
  | .jstr s1, .jstr s2 => decide (s1 = s2)
  | _, _ => false

/-- Canonical key of a hashable value: booleans collapse onto the
numbers 1 and 0 exactly as Python hash/== does.  Used only to reason
about pyKeyEq; none for unhashable values. -/
def keyRep : JValue → Option (ℚ ⊕ String ⊕ Unit)
  | .jnull => some (.inr (.inr ()))
  | .jbool b => some (.inl (if b then 1 else 0))
  | .jnum q => some (.inl q)
  | .jstr s => some (.inr (.inl s))
  | .jarr _ => none
  | .jobj _ => none

/-- Python containment of a key among stored dict keys, up to ==. -/
def pyHasKey (ks : List JValue) (k : JValue) : Bool :=
  ks.any (fun k2 => pyKeyEq k2 k)

/-- Python dict lookup on the author tables, whose keys are arbitrary
hashable Python values compared with hash/==. -/
def pyKeyLookup (t : List (JValue × α)) (k : JValue) : Option α :=
  match t with
  | [] => none
  | (k2, v) :: rest => if pyKeyEq k2 k then some v else pyKeyLookup rest k

/-- Python dict.get with a default on the author tables. -/
def pyKeyGet (t : List (JValue × α)) (k : JValue) (d : α) : α :=
  match pyKeyLookup t k with
  | some v => v
  | none => d

/-- Python defaultdict update t[k] = f(t.get(k, d)) on the author
tables: an entry whose stored key is == to k is rewritten in place,
keeping its position and its originally inserted key object (as Python
dicts do); a missing key is appended at the end, matching dict
insertion order. -/
def pyKeyUpdate (t : List (JValue × α)) (k : JValue) (d : α) (f : α → α) :
    List (JValue × α) :=
  match t with
  | [] => [(k, f d)]
  | (k2, v) :: rest =>
    if pyKeyEq k2 k then (k2, f v) :: rest else (k2, v) :: pyKeyUpdate rest k d f

/-- External collaborators used inside process_message.  Each call can
raise an arbitrary exception, modelled as Except.error:
analyzeSentiment is TextBlob(message).sentiment.polarity as wrapped by
analyze_sentiment, drawCountChart stands for the matplotlib calls in
update_chart, drawSentimentChart for those in update_sentiment_chart. -/
structure External where
  analyzeSentiment : JValue → Except Unit ℚ
  drawCountChart : List JValue → List ℕ → Except Unit Unit
  drawSentimentChart : List JValue → List ℚ → Except Unit Unit

/-- Average sentiment as computed inline in update_sentiment_chart:
sum(scores) / len(scores). -/
def avgSentiment (scores : List ℚ) : ℚ :=
  scores.sum / (scores.length : ℚ)

/-- Model of update_chart: reads author_counts, hands the key list and
the count list to the backend; on success a countChart render is
recorded, on a backend exception the state at the raise point is
returned in the error branch. -/
def update_chart (ext : External) (st : ConsumerState) :
    Except ConsumerState ConsumerState :=
  let authors_list := st.author_counts.map Prod.fst
  let counts_list := st.author_counts.map Prod.snd
  match ext.drawCountChart authors_list counts_list with
  | .error _ => .error st
  | .ok _ =>
    .ok { st with renders := st.renders ++ [RenderEvent.countChart authors_list counts_list] }

/-- Model of update_sentiment_chart: reads author_sentiments, computes
the per-author averages, hands them to the backend. -/
def update_sentiment_chart (ext : External) (st : ConsumerState) :
    Except ConsumerState ConsumerState :=
  let authors := st.author_sentiments.map Prod.fst
  let avg_sentiments := st.author_sentiments.map (fun kv => avgSentiment kv.2)
  match ext.drawSentimentChart authors avg_sentiments with
  | .error _ => .error st
  | .ok _ =>
    .ok { st with renders := st.renders ++ [RenderEvent.sentimentChart authors avg_sentiments] }

/-- Outcome of json.loads on the raw payload string: either a
JSONDecodeError or the decoded JSON value.  The parser itself is the
Python standard library, external to the repository. -/
abbrev DecodedPayload := Except Unit JValue

/-- The two chart refresh calls at the end of the success path of
process_message, update_chart() followed by update_sentiment_chart(),
as they behave under the broad except handler: an exception in either
call is caught, logged at error level, and the state mutated so far is
kept. -/
def renderCharts (ext : External) (st : ConsumerState) : ConsumerState :=
  match update_chart ext st with
  | .error st2 => logAdd st2 .processingFailed
  | .ok st2 =>
    match update_sentiment_chart ext st2 with
    | .error st3 => logAdd st3 .processingFailed
    | .ok st3 => logAdd st3 .chartsUpdated

/-- Model of process_message.  The try block logs the raw message,
parses it, and on a dict result extracts author (default "unknown")
and message (default ""), scores the message, appends the score to
author_sentiments[author], increments author_counts[author], and
redraws both charts.  json.JSONDecodeError is caught by its dedicated
handler; every other exception falls to the broad handler, which logs
and returns, so the function is total.  Besides the scorer and the
chart backend, the indexing author_sentiments[author] itself raises
TypeError when the author value is unhashable (a list or a dict):
that raise happens before any mutation, so neither table changes and
the broad handler logs one error. -/
def process_message (ext : External) (st : ConsumerState)
    (message : DecodedPayload) : ConsumerState :=
  let st := logAdd st .rawMessage
  match message with
  | .error _ => logAdd st .invalidJson
  | .ok message_dict =>
    let st := logAdd st .processedJson
    match message_dict with
    | .jobj fields =>
      let author := pyGet fields "author" (JValue.jstr "unknown")
      let message_text := pyGet fields "message" (JValue.jstr "")
      match ext.analyzeSentiment message_text with
      | .error _ => logAdd st .processingFailed
      | .ok sentiment_score =>
        let st := logAdd st .sentimentScore
        if author.hashable then
          let st := { st with
            author_sentiments :=
              pyKeyUpdate st.author_sentiments author [] (fun l => l ++ [sentiment_score]) }
          let st := { st with
            author_counts := pyKeyUpdate st.author_counts author 0 (fun n => n + 1) }
          let st := logAdd st .updatedCounts
          renderCharts ext st
        else
          logAdd st .processingFailed
    | _ => logAdd st .expectedDict

/-- Fold process_message over a list of decoded payloads. -/
def processEvents (ext : External) (st : ConsumerState) :
    List DecodedPayload → ConsumerState
  | [] => st
  | p :: rest => processEvents ext (process_message ext st p) rest

/-- Run a payload sequence from the empty initial state. -/
def runEvents (ext : External) (ps : List DecodedPayload) : ConsumerState :=
  processEvents ext initState ps

instance : DecidableEq DecodedPayload := fun a b =>
  match a, b with
  | .error (), .error () => .isTrue rfl
  | .ok x, .ok y =>
    match decEq x y with
    | .isTrue h => .isTrue (by rw [h])
    | .isFalse h => .isFalse (by intro g; cases g; exact h rfl)
  | .error (), .ok _ => .isFalse (by intro h; cases h)
  | .ok _, .error () => .isFalse (by intro h; cases h)

/-- One step of the for loop over the Kafka consumer in main: either
the iterator yields a message (whose value is then parsed by
json.loads inside process_message), or a KeyboardInterrupt is observed
at this point, or the iterator itself raises some other exception. -/
inductive StreamItem where
  | payload (p : DecodedPayload)
  | interrupt
  | sourceFailure
deriving DecidableEq

/-- How the polling loop in main was left. -/
inductive ExitKind where
  | normal
  | interrupted
  | sourceFailed
deriving DecidableEq

/-- Observable outcome of main: final state, the way the loop exited,
and whether consumer.close() ran. -/
structure MainResult where
  state : ConsumerState
  exitKind : ExitKind
  consumerClosed : Bool
deriving DecidableEq

/-- The for loop in main: each yielded message is logged at debug level
and handed to process_message, which always returns normally; a
KeyboardInterrupt is caught by its handler (warning log), any other
iterator exception by the broad handler (error log). -/
def consumeLoop (ext : External) (st : ConsumerState) :
    List StreamItem → ConsumerState × ExitKind
  | [] => (st, .normal)
  | .payload p :: rest =>
    let st := logAdd st .receivedMessage
    consumeLoop ext (process_message ext st p) rest
  | .interrupt :: _ => (logAdd st .interruptedByUser, .interrupted)
  | .sourceFailure :: _ => (logAdd st .consumingFailed, .sourceFailed)

/-- Model of the try/except/finally around the polling loop in main:
whichever way the loop exits, the finally block closes the consumer
and logs it. -/
def mainLoop (ext : External) (stream : List StreamItem) : MainResult :=
  let r := consumeLoop ext initState stream
  { state := logAdd r.1 .consumerClosed, exitKind := r.2, consumerClosed := true }

/-- Boolean test for a payload that json.loads decoded to a dict, the
shape of a valid event. -/
def isDictEvent : DecodedPayload → Bool
  | .ok (.jobj _) => true
  | _ => false

/-- Boolean test for a payload that cannot be decoded into an
author/text record: json.loads raised, or the top-level value is not a
dict. -/
def isUndecodable : DecodedPayload → Bool
  | .error _ => true
  | .ok (.jobj _) => false
  | .ok _ => true

/-- Boolean test for an event the program actually books: decodable to
a dict whose (defaulted) author value is hashable.  A dict event whose
author value is a list or a dict passes decoding but raises TypeError
at the table update and is skipped. -/
def isBookableEvent : DecodedPayload → Bool
  | .ok (.jobj fields) => (pyGet fields "author" (JValue.jstr "unknown")).hashable
  | _ => false

/-- The author key an event contributes under a given scorer: defined
exactly when the payload is a dict, the scorer succeeds on the
(defaulted) message text, and the (defaulted) author value is
hashable; an unhashable author raises TypeError before the update, so
the event contributes no key. -/
def eventAuthor (ext : External) : DecodedPayload → Option JValue
  | .ok (.jobj fields) =>
    match ext.analyzeSentiment (pyGet fields "message" (JValue.jstr "")) with
    | .ok _ =>
      if (pyGet fields "author" (JValue.jstr "unknown")).hashable
      then some (pyGet fields "author" (JValue.jstr "unknown"))
      else none
    | .error _ => none
  | _ => none

/-- Append a key unless an ==-equal key is already stored; the
key-order effect of one defaultdict update. -/
def insertNew (ks : List JValue) (a : JValue) : List JValue :=
  if pyHasKey ks a then ks else ks ++ [a]

/-- First-appearance order of a key sequence under Python ==:
deduplicate keeping the first occurrence of each key. -/
def firstSeen (l : List JValue) : List JValue :=
  l.foldl insertNew []

/-- An External whose scorer always returns 0 and whose backend never
raises, for concrete evaluations. -/
def trivialExt : External :=
  { analyzeSentiment := fun _ => .ok 0
    drawCountChart := fun _ _ => .ok ()
    drawSentimentChart := fun _ _ => .ok () }

/-- The scorer of the scenario in the spec: great scores 0.8, bad
scores -0.6, ok scores 0.0. -/
def demoExt : External :=
  { analyzeSentiment := fun v =>
      if v = JValue.jstr "great" then .ok (4 / 5)
      else if v = JValue.jstr "bad" then .ok (-(3 / 5))
      else if v = JValue.jstr "ok" then .ok 0
      else .error ()
    drawCountChart := fun _ _ => .ok ()
    drawSentimentChart := fun _ _ => .ok () }

/-- The event sequence of the scenario in the spec. -/
def demoEvents : List DecodedPayload :=
  [ .ok (.jobj [("author", JValue.jstr "a"), ("message", JValue.jstr "great")]),
    .ok (.jobj [("author", JValue.jstr "b"), ("message", JValue.jstr "bad")]),
    .ok (.jobj [("author", JValue.jstr "a"), ("message", JValue.jstr "ok")]) ]

/-- An External whose scorer raises on every input, the shape of a
TextBlob failure. -/
def failScoreExt : External :=
  { analyzeSentiment := fun _ => .error ()
    drawCountChart := fun _ _ => .ok ()
    drawSentimentChart := fun _ _ => .ok () }

/-- An External whose scorer succeeds but whose chart backend raises on
every call, the shape of a matplotlib failure. -/
def failRenderExt : External :=
  { analyzeSentiment := fun _ => .ok 0
    drawCountChart := fun _ _ => .error ()
    drawSentimentChart := fun _ _ => .error () }

/-- Key-synchronization invariant on the two tables: identical key
sequences, the sentiment list length at each key equals the count at
that key, and every sentiment list is nonempty. -/
def TInv (counts : List (JValue × ℕ)) (sents : List (JValue × List ℚ)) : Prop :=
  counts.map Prod.fst = sents.map Prod.fst ∧
  (∀ k, (pyKeyLookup sents k).map List.length = pyKeyLookup counts k) ∧
  (∀ kl ∈ sents, kl.2 ≠ ([] : List ℚ))

/-- The invariant, read on a consumer state. -/
def StateInv (st : ConsumerState) : Prop :=
  TInv st.author_counts st.author_sentiments

/-- A value is hashable exactly when it has a canonical key. -/
theorem hashable_iff_keyRep (a : JValue) :
    a.hashable = true ↔ ∃ x, keyRep a = some x := by
  cases a <;> simp [JValue.hashable, keyRep]

/-- pyKeyEq compares the canonical keys: booleans collapse onto 1 and
0, numbers and strings compare by value, unhashables match nothing. -/
theorem pyKeyEq_eq_keyRep (a b : JValue) :
    pyKeyEq a b = (match keyRep a, keyRep b with
      | some x, some y => decide (x = y)
      | _, _ => false) := by
  cases a <;> cases b <;>
    simp only [pyKeyEq, keyRep] <;> try rfl
  case jbool.jbool b1 b2 => cases b1 <;> cases b2 <;> simp
  case jbool.jnum b1 q => simp
  case jnum.jbool q b2 => simp
  case jnum.jnum q1 q2 => simp
  case jstr.jstr s1 s2 => simp

/-- Python == is reflexive on hashable values. -/
theorem pyKeyEq_refl_of_hashable (a : JValue) (h : a.hashable = true) :
    pyKeyEq a a = true := by
  obtain ⟨x, hx⟩ := (hashable_iff_keyRep a).mp h
  rw [pyKeyEq_eq_keyRep, hx]
  simp

/-- Python == is symmetric. -/
theorem pyKeyEq_symm (a b : JValue) : pyKeyEq a b = pyKeyEq b a := by
  rw [pyKeyEq_eq_keyRep, pyKeyEq_eq_keyRep]
  cases keyRep a <;> cases keyRep b <;> simp [eq_comm]

/-- Python == is transitive. -/
theorem pyKeyEq_trans (a b c : JValue) (h1 : pyKeyEq a b = true)
    (h2 : pyKeyEq b c = true) : pyKeyEq a c = true := by
  rw [pyKeyEq_eq_keyRep] at h1 h2 ⊢
  cases ha : keyRep a with
  | none => rw [ha] at h1; simp at h1
  | some x =>
    cases hb : keyRep b with
    | none => rw [hb] at h2; simp at h2
    | some y =>
      cases hc : keyRep c with
      | none => rw [hc] at h2; simp at h2
      | some z =>
        rw [ha, hb] at h1
        rw [hb, hc] at h2
        simp at h1 h2 ⊢
        rw [h1, h2]

/-- Keys == to each other are interchangeable on the left of
pyKeyEq. -/
theorem pyKeyEq_congr (k k2 : JValue) (h : pyKeyEq k k2 = true)
    (b : JValue) : pyKeyEq b k = pyKeyEq b k2 := by
  by_cases h1 : pyKeyEq b k = true
  · rw [h1, (pyKeyEq_trans b k k2 h1 h)]
  · rw [Bool.not_eq_true] at h1
    rw [h1]
    by_cases h2 : pyKeyEq b k2 = true
    · have h3 : pyKeyEq b k = true :=
        pyKeyEq_trans b k2 k h2 (by rw [pyKeyEq_symm]; exact h)
      rw [h3] at h1
      cases h1
    · rw [Bool.not_eq_true] at h2
      rw [h2]

/-- Lookups agree on keys that Python considers equal. -/
theorem pyKeyLookup_congr (t : List (JValue × α)) (k k2 : JValue)
    (h : pyKeyEq k k2 = true) : pyKeyLookup t k = pyKeyLookup t k2 := by
  induction t with
  | nil => rfl
  | cons hd tl ih =>
    obtain ⟨k3, v⟩ := hd
    simp only [pyKeyLookup]
    rw [pyKeyEq_congr k k2 h k3, ih]

/-- Updating a hashable key makes it the lookup result at that key. -/
theorem pyKeyLookup_pyKeyUpdate_self (t : List (JValue × α)) (k : JValue)
    (d : α) (f : α → α) (href : pyKeyEq k k = true) :
    pyKeyLookup (pyKeyUpdate t k d f) k = some (f (pyKeyGet t k d)) := by
  induction t with
  | nil => simp [pyKeyUpdate, pyKeyLookup, pyKeyGet, href]
  | cons hd tl ih =>
    obtain ⟨k2, v⟩ := hd
    by_cases h : pyKeyEq k2 k = true
    · simp [pyKeyUpdate, pyKeyLookup, pyKeyGet, h]
    · rw [Bool.not_eq_true] at h
      simp only [pyKeyUpdate, pyKeyLookup, pyKeyGet, h] at ih ⊢
      simp only [Bool.false_eq_true, if_false]
      exact ih

/-- Updating one key leaves lookups at unrelated keys unchanged. -/
theorem pyKeyLookup_pyKeyUpdate_ne (t : List (JValue × α)) (k k2 : JValue)
    (d : α) (f : α → α) (h : pyKeyEq k2 k = false) :
    pyKeyLookup (pyKeyUpdate t k d f) k2 = pyKeyLookup t k2 := by
  induction t with
  | nil =>
    have h2 : pyKeyEq k k2 = false := by rw [pyKeyEq_symm]; exact h
    simp [pyKeyUpdate, pyKeyLookup, h2]
  | cons hd tl ih =>
    obtain ⟨k3, v⟩ := hd
    by_cases h3 : pyKeyEq k3 k = true
    · have h4 : pyKeyEq k3 k2 = false := by
        by_cases h5 : pyKeyEq k3 k2 = true
        · have h6 : pyKeyEq k2 k3 = true := by rw [pyKeyEq_symm]; exact h5
          have h7 : pyKeyEq k2 k = true := pyKeyEq_trans k2 k3 k h6 h3
          rw [h7] at h
          cases h
        · rw [Bool.not_eq_true] at h5
          exact h5
      simp [pyKeyUpdate, pyKeyLookup, h3, h4]
    · rw [Bool.not_eq_true] at h3
      by_cases h5 : pyKeyEq k3 k2 = true
      · simp [pyKeyUpdate, pyKeyLookup, h3, h5]
      · rw [Bool.not_eq_true] at h5
        simp [pyKeyUpdate, pyKeyLookup, h3, h5, ih]

/-- Containment among a nonempty key list, one step. -/
theorem pyHasKey_cons (k2 k : JValue) (ks : List JValue) :
    pyHasKey (k2 :: ks) k = (pyKeyEq k2 k || pyHasKey ks k) := by
  simp [pyHasKey]

/-- Key order after a defaultdict update: unchanged when an ==-equal
key is already stored, appended at the end otherwise. -/
theorem keys_pyKeyUpdate (t : List (JValue × α)) (k : JValue) (d : α)
    (f : α → α) :
    (pyKeyUpdate t k d f).map Prod.fst =
      if pyHasKey (t.map Prod.fst) k then t.map Prod.fst
      else t.map Prod.fst ++ [k] := by
  induction t with
  | nil => simp [pyKeyUpdate, pyHasKey]
  | cons hd tl ih =>
    obtain ⟨k2, v⟩ := hd
    by_cases h : pyKeyEq k2 k = true
    · simp [pyKeyUpdate, pyHasKey_cons, h]
    · rw [Bool.not_eq_true] at h
      by_cases h2 : pyHasKey (tl.map Prod.fst) k = true
      · simp [pyKeyUpdate, pyHasKey_cons, h, ih, h2]
      · rw [Bool.not_eq_true] at h2
        simp [pyKeyUpdate, pyHasKey_cons, h, ih, h2]

/-- Every entry of an updated table is an old entry or carries an
updated value. -/
theorem mem_pyKeyUpdate (t : List (JValue × α)) (k : JValue) (d : α)
    (f : α → α) :
    ∀ kl ∈ pyKeyUpdate t k d f, kl ∈ t ∨ ∃ v, kl.2 = f v := by
  induction t with
  | nil =>
    intro kl hkl
    simp [pyKeyUpdate] at hkl
    right
    exact ⟨d, by rw [hkl]⟩
  | cons hd tl ih =>
    obtain ⟨k2, v⟩ := hd
    intro kl hkl
    by_cases h : pyKeyEq k2 k = true
    · have hupd : pyKeyUpdate ((k2, v) :: tl) k d f = (k2, f v) :: tl := by
        simp [pyKeyUpdate, h]
      rw [hupd] at hkl
      rcases List.mem_cons.mp hkl with h1 | h1
      · right; exact ⟨v, by rw [h1]⟩
      · left; exact List.mem_cons_of_mem _ h1
    · rw [Bool.not_eq_true] at h
      have hupd : pyKeyUpdate ((k2, v) :: tl) k d f
          = (k2, v) :: pyKeyUpdate tl k d f := by
        simp [pyKeyUpdate, h]
      rw [hupd] at hkl
      rcases List.mem_cons.mp hkl with h1 | h1
      · left; rw [h1]; exact List.mem_cons_self _ _
      · rcases ih kl h1 with h2 | h2
        · left; exact List.mem_cons_of_mem _ h2
        · right; exact h2

/-- Incrementing one count raises the total of all counts by one. -/
theorem sum_pyKeyUpdate_succ (t : List (JValue × ℕ)) (k : JValue) :
    ((pyKeyUpdate t k 0 (fun n => n + 1)).map Prod.snd).sum
      = (t.map Prod.snd).sum + 1 := by
  induction t with
  | nil => simp [pyKeyUpdate]
  | cons hd tl ih =>
    obtain ⟨k2, v⟩ := hd
    by_cases h : pyKeyEq k2 k = true
    · simp [pyKeyUpdate, h]
      omega
    · rw [Bool.not_eq_true] at h
      simp [pyKeyUpdate, h, ih]
      omega

/-- The value of the author-table get when the key is absent. -/
theorem pyKeyGet_of_none (t : List (JValue × α)) (k : JValue) (d : α)
    (h : pyKeyLookup t k = none) : pyKeyGet t k d = d := by
  simp [pyKeyGet, h]

/-- The value of the author-table get when the key is present. -/
theorem pyKeyGet_of_some (t : List (JValue × α)) (k : JValue) (d v : α)
    (h : pyKeyLookup t k = some v) : pyKeyGet t k d = v := by
  simp [pyKeyGet, h]

/-- The value of dict.get when the key is absent. -/
theorem pyGet_of_none [DecidableEq κ] (t : List (κ × α)) (k : κ) (d : α)
    (h : pyLookup t k = none) : pyGet t k d = d := by
  simp [pyGet, h]

/-- The value of dict.get when the key is present. -/
theorem pyGet_of_some [DecidableEq κ] (t : List (κ × α)) (k : κ) (d v : α)
    (h : pyLookup t k = some v) : pyGet t k d = v := by
  simp [pyGet, h]

/-- The two possible results of update_chart: the untouched state in
the error branch, or the state with one more countChart render. -/
theorem update_chart_shape (ext : External) (st : ConsumerState) :
    update_chart ext st = Except.error st ∨
    update_chart ext st = Except.ok { st with renders := st.renders ++
      [RenderEvent.countChart (st.author_counts.map Prod.fst)
        (st.author_counts.map Prod.snd)] } := by
  simp only [update_chart]
  cases h1 : ext.drawCountChart (List.map Prod.fst st.author_counts)
      (List.map Prod.snd st.author_counts) with
  | error e => left; rfl
  | ok u => right; rfl

/-- The two possible results of update_sentiment_chart. -/
theorem update_sentiment_chart_shape (ext : External) (st : ConsumerState) :
    update_sentiment_chart ext st = Except.error st ∨
    update_sentiment_chart ext st = Except.ok { st with renders := st.renders ++
      [RenderEvent.sentimentChart (st.author_sentiments.map Prod.fst)
        (st.author_sentiments.map (fun kv => avgSentiment kv.2))] } := by
  simp only [update_sentiment_chart]
  cases h1 : ext.drawSentimentChart (List.map Prod.fst st.author_sentiments)
      (List.map (fun kv => avgSentiment kv.2) st.author_sentiments) with
  | error e => left; rfl
  | ok u => right; rfl

/-- The chart refresh phase never touches the two tables, whether or
not the backend raises. -/
theorem renderCharts_tables (ext : External) (st : ConsumerState) :
    (renderCharts ext st).author_counts = st.author_counts ∧
    (renderCharts ext st).author_sentiments = st.author_sentiments := by
  unfold renderCharts
  rcases update_chart_shape ext st with h1 | h1 <;> rw [h1]
  · simp [logAdd]
  · rcases update_sentiment_chart_shape ext
      { st with renders := st.renders ++
        [RenderEvent.countChart (st.author_counts.map Prod.fst)
          (st.author_counts.map Prod.snd)] } with h2 | h2 <;>
    simp [h2, logAdd]

/-- On an undecodable payload, process_message leaves both tables and
the render history untouched and adds exactly one error-level log
entry. -/
theorem process_message_undecodable (ext : External) (st : ConsumerState)
    (p : DecodedPayload) (h : isUndecodable p = true) :
    (process_message ext st p).author_counts = st.author_counts ∧
    (process_message ext st p).author_sentiments = st.author_sentiments ∧
    (process_message ext st p).renders = st.renders ∧
    errorLogCount (process_message ext st p).logs = errorLogCount st.logs + 1 := by
  cases p with
  | error e =>
    simp [process_message, logAdd, errorLogCount, LogEvent.isErrorLevel,
      List.filter_append]
  | ok v =>
    cases v with
    | jobj fs => simp [isUndecodable] at h
    | jnull =>
      simp [process_message, logAdd, errorLogCount, LogEvent.isErrorLevel,
        List.filter_append]
    | jbool b =>
      simp [process_message, logAdd, errorLogCount, LogEvent.isErrorLevel,
        List.filter_append]
    | jnum q =>
      simp [process_message, logAdd, errorLogCount, LogEvent.isErrorLevel,
        List.filter_append]
    | jstr s =>
      simp [process_message, logAdd, errorLogCount, LogEvent.isErrorLevel,
        List.filter_append]
    | jarr xs =>
      simp [process_message, logAdd, errorLogCount, LogEvent.isErrorLevel,
        List.filter_append]

/-- On a dict payload whose message text the scorer rejects, the broad
except handler fires: both tables and the render history are left
untouched and exactly one error-level entry is logged. -/
theorem process_message_scorefail (ext : External) (st : ConsumerState)
    (fields : List (String × JValue)) (e : Unit)
    (hs : ext.analyzeSentiment (pyGet fields "message" (JValue.jstr "")) =
      Except.error e) :
    (process_message ext st (.ok (.jobj fields))).author_counts = st.author_counts ∧
    (process_message ext st (.ok (.jobj fields))).author_sentiments = st.author_sentiments ∧
    (process_message ext st (.ok (.jobj fields))).renders = st.renders ∧
    errorLogCount (process_message ext st (.ok (.jobj fields))).logs
      = errorLogCount st.logs + 1 := by
  simp [process_message, hs, logAdd, errorLogCount, LogEvent.isErrorLevel,
    List.filter_append]

/-- On a dict payload whose message text the scorer accepts and whose
(defaulted) author value is hashable, the final tables are exactly the
two defaultdict updates at that author key, whatever the chart backend
then does. -/
theorem process_message_ok (ext : External) (st : ConsumerState)
    (fields : List (String × JValue)) (q : ℚ)
    (hs : ext.analyzeSentiment (pyGet fields "message" (JValue.jstr "")) =
      Except.ok q)
    (ha : (pyGet fields "author" (JValue.jstr "unknown")).hashable = true) :
    (process_message ext st (.ok (.jobj fields))).author_counts
      = pyKeyUpdate st.author_counts (pyGet fields "author" (JValue.jstr "unknown"))
          0 (fun n => n + 1) ∧
    (process_message ext st (.ok (.jobj fields))).author_sentiments
      = pyKeyUpdate st.author_sentiments (pyGet fields "author" (JValue.jstr "unknown"))
          [] (fun l => l ++ [q]) := by
  simp only [process_message, hs, ha, logAdd, if_true]
  constructor
  · rw [(renderCharts_tables ext _).1]
  · rw [(renderCharts_tables ext _).2]

/-- On a dict payload whose message text the scorer accepts but whose
(defaulted) author value is unhashable, author_sentiments[author]
raises TypeError before any mutation: both tables and the render
history are untouched and exactly one error-level entry is logged. -/
theorem process_message_unhashable (ext : External) (st : ConsumerState)
    (fields : List (String × JValue)) (q : ℚ)
    (hs : ext.analyzeSentiment (pyGet fields "message" (JValue.jstr "")) =
      Except.ok q)
    (ha : (pyGet fields "author" (JValue.jstr "unknown")).hashable = false) :
    (process_message ext st (.ok (.jobj fields))).author_counts = st.author_counts ∧
    (process_message ext st (.ok (.jobj fields))).author_sentiments = st.author_sentiments ∧
    (process_message ext st (.ok (.jobj fields))).renders = st.renders ∧
    errorLogCount (process_message ext st (.ok (.jobj fields))).logs
      = errorLogCount st.logs + 1 := by
  simp [process_message, hs, ha, logAdd, errorLogCount, LogEvent.isErrorLevel,
    List.filter_append]

/-- One simultaneous defaultdict update at a hashable key preserves the
key-synchronization invariant. -/
theorem TInv_update (counts : List (JValue × ℕ)) (sents : List (JValue × List ℚ))
    (a : JValue) (q : ℚ) (ha : a.hashable = true) (hinv : TInv counts sents) :
    TInv (pyKeyUpdate counts a 0 (fun n => n + 1))
      (pyKeyUpdate sents a [] (fun l => l ++ [q])) := by
  obtain ⟨h1, h2, h3⟩ := hinv
  have href : pyKeyEq a a = true := pyKeyEq_refl_of_hashable a ha
  refine ⟨?_, ?_, ?_⟩
  · rw [keys_pyKeyUpdate, keys_pyKeyUpdate, h1]
  · intro k
    by_cases hk : pyKeyEq k a = true
    · rw [pyKeyLookup_congr _ k a hk, pyKeyLookup_congr _ k a hk,
        pyKeyLookup_pyKeyUpdate_self _ _ _ _ href,
        pyKeyLookup_pyKeyUpdate_self _ _ _ _ href]
      have h2k := h2 a
      cases hcs : pyKeyLookup sents a with
      | none =>
        have hcc : pyKeyLookup counts a = none := by rw [← h2k, hcs]; rfl
        rw [pyKeyGet_of_none _ _ _ hcs, pyKeyGet_of_none _ _ _ hcc]
        simp
      | some l =>
        have hcc : pyKeyLookup counts a = some l.length := by rw [← h2k, hcs]; rfl
        rw [pyKeyGet_of_some _ _ _ _ hcs, pyKeyGet_of_some _ _ _ _ hcc]
        simp
    · rw [Bool.not_eq_true] at hk
      rw [pyKeyLookup_pyKeyUpdate_ne _ _ _ _ _ hk,
        pyKeyLookup_pyKeyUpdate_ne _ _ _ _ _ hk]
      exact h2 k
  · intro kl hkl
    rcases mem_pyKeyUpdate _ _ _ _ kl hkl with h4 | ⟨v, h4⟩
    · exact h3 kl h4
    · rw [h4]; simp

/-- Processing any single payload preserves the invariant. -/
theorem stateInv_process_message (ext : External) (st : ConsumerState)
    (p : DecodedPayload) (hinv : StateInv st) :
    StateInv (process_message ext st p) := by
  cases p with
  | error e =>
    have h := process_message_undecodable ext st (.error e) (by simp [isUndecodable])
    unfold StateInv
    rw [h.1, h.2.1]
    exact hinv
  | ok v =>
    cases v with
    | jobj fields =>
      cases hs : ext.analyzeSentiment (pyGet fields "message" (JValue.jstr "")) with
      | error e =>
        have h := process_message_scorefail ext st fields e hs
        unfold StateInv
        rw [h.1, h.2.1]
        exact hinv
      | ok q =>
        by_cases ha : (pyGet fields "author" (JValue.jstr "unknown")).hashable = true
        · have h := process_message_ok ext st fields q hs ha
          unfold StateInv
          rw [h.1, h.2]
          exact TInv_update _ _ _ _ ha hinv
        · rw [Bool.not_eq_true] at ha
          have h := process_message_unhashable ext st fields q hs ha
          unfold StateInv
          rw [h.1, h.2.1]
          exact hinv
    | jnull =>
      have h := process_message_undecodable ext st (.ok .jnull)
        (by simp [isUndecodable])
      unfold StateInv
      rw [h.1, h.2.1]
      exact hinv
    | jbool b =>
      have h := process_message_undecodable ext st (.ok (.jbool b))
        (by simp [isUndecodable])
      unfold StateInv
      rw [h.1, h.2.1]
      exact hinv
    | jnum n =>
      have h := process_message_undecodable ext st (.ok (.jnum n))
        (by simp [isUndecodable])
      unfold StateInv
      rw [h.1, h.2.1]
      exact hinv
    | jstr s =>
      have h := process_message_undecodable ext st (.ok (.jstr s))
        (by simp [isUndecodable])
      unfold StateInv
      rw [h.1, h.2.1]
      exact hinv
    | jarr xs =>
      have h := process_message_undecodable ext st (.ok (.jarr xs))
        (by simp [isUndecodable])
      unfold StateInv
      rw [h.1, h.2.1]
      exact hinv

/-- The invariant holds at process start. -/
theorem stateInv_init : StateInv initState := by
  refine ⟨rfl, fun k => rfl, ?_⟩
  intro kl hkl
  simp [initState] at hkl

/-- The invariant is preserved along any event sequence. -/
theorem stateInv_processEvents (ext : External) (ps : List DecodedPayload)
    (st : ConsumerState) (hinv : StateInv st) :
    StateInv (processEvents ext st ps) := by
  induction ps generalizing st with
  | nil => exact hinv
  | cons p rest ih => exact ih _ (stateInv_process_message ext st p hinv)

/-- The invariant holds in every reachable state. -/
theorem stateInv_runEvents (ext : External) (ps : List DecodedPayload) :
    StateInv (runEvents ext ps) :=
  stateInv_processEvents ext ps initState stateInv_init

/-- Running bookable events (dict-shaped, hashable author) with a total
scorer adds exactly the number of events to the total of the counts. -/
theorem sum_processEvents (ext : External) (ps : List DecodedPayload)
    (hscore : ∀ v, ∃ q, ext.analyzeSentiment v = Except.ok q)
    (hvalid : ∀ p ∈ ps, isBookableEvent p = true) (st : ConsumerState) :
    ((processEvents ext st ps).author_counts.map Prod.snd).sum
      = (st.author_counts.map Prod.snd).sum + ps.length := by
  induction ps generalizing st with
  | nil => simp [processEvents]
  | cons p rest ih =>
    have hp : isBookableEvent p = true := hvalid p (List.mem_cons_self _ _)
    have hrest : ∀ p2 ∈ rest, isBookableEvent p2 = true :=
      fun p2 hp2 => hvalid p2 (List.mem_cons_of_mem _ hp2)
    cases p with
    | error e => simp [isBookableEvent] at hp
    | ok v =>
      cases v with
      | jobj fields =>
        have ha : (pyGet fields "author" (JValue.jstr "unknown")).hashable = true := by
          simpa [isBookableEvent] using hp
        obtain ⟨q, hq⟩ := hscore (pyGet fields "message" (JValue.jstr ""))
        have hok := process_message_ok ext st fields q hq ha
        simp only [processEvents]
        rw [ih hrest _, hok.1, sum_pyKeyUpdate_succ]
        simp [List.length_cons]
        omega
      | jnull => simp [isBookableEvent] at hp
      | jbool b => simp [isBookableEvent] at hp
      | jnum n => simp [isBookableEvent] at hp
      | jstr s => simp [isBookableEvent] at hp
      | jarr xs => simp [isBookableEvent] at hp

/-- The key order of author_counts after one payload: unchanged unless
the event was booked, in which case its author key is appended when no
==-equal key is stored yet. -/
theorem keys_process_message (ext : External) (st : ConsumerState)
    (p : DecodedPayload) :
    (process_message ext st p).author_counts.map Prod.fst =
      match eventAuthor ext p with
      | none => st.author_counts.map Prod.fst
      | some a => insertNew (st.author_counts.map Prod.fst) a := by
  cases p with
  | error e =>
    rw [(process_message_undecodable ext st (.error e)
      (by simp [isUndecodable])).1]
    simp [eventAuthor]
  | ok v =>
    cases v with
    | jobj fields =>
      cases hs : ext.analyzeSentiment (pyGet fields "message" (JValue.jstr "")) with
      | error e =>
        rw [(process_message_scorefail ext st fields e hs).1]
        simp [eventAuthor, hs]
      | ok q =>
        by_cases ha : (pyGet fields "author" (JValue.jstr "unknown")).hashable = true
        · rw [(process_message_ok ext st fields q hs ha).1, keys_pyKeyUpdate]
          simp [eventAuthor, hs, ha, insertNew]
        · rw [Bool.not_eq_true] at ha
          rw [(process_message_unhashable ext st fields q hs ha).1]
          simp [eventAuthor, hs, ha]
    | jnull =>
      rw [(process_message_undecodable ext st (.ok .jnull)
        (by simp [isUndecodable])).1]
      simp [eventAuthor]
    | jbool b =>
      rw [(process_message_undecodable ext st (.ok (.jbool b))
        (by simp [isUndecodable])).1]
      simp [eventAuthor]
    | jnum n =>
      rw [(process_message_undecodable ext st (.ok (.jnum n))
        (by simp [isUndecodable])).1]
      simp [eventAuthor]
    | jstr s =>
      rw [(process_message_undecodable ext st (.ok (.jstr s))
        (by simp [isUndecodable])).1]
      simp [eventAuthor]
    | jarr xs =>
      rw [(process_message_undecodable ext st (.ok (.jarr xs))
        (by simp [isUndecodable])).1]
      simp [eventAuthor]

/-- The key order after an event sequence is the fold of insertNew over
the authors of the booked events. -/
theorem keys_processEvents (ext : External) (ps : List DecodedPayload)
    (st : ConsumerState) :
    (processEvents ext st ps).author_counts.map Prod.fst
      = (ps.filterMap (eventAuthor ext)).foldl insertNew
          (st.author_counts.map Prod.fst) := by
  induction ps generalizing st with
  | nil => simp [processEvents]
  | cons p rest ih =>
    have hk := keys_process_message ext st p
    simp only [processEvents]
    rw [ih (process_message ext st p)]
    cases hp : eventAuthor ext p with
    | none =>
      rw [hp] at hk
      rw [hk]
      simp [List.filterMap_cons, hp]
    | some a =>
      rw [hp] at hk
      rw [hk]
      simp [List.filterMap_cons, hp]

/-- A stream of plain payloads never makes the polling loop exit other
than normally. -/
theorem consumeLoop_normal (ext : External) :
    ∀ (stream : List StreamItem) (st : ConsumerState),
      (∀ it ∈ stream, ∃ p, it = StreamItem.payload p) →
      (consumeLoop ext st stream).2 = ExitKind.normal := by
  intro stream
  induction stream with
  | nil => intro st h; rfl
  | cons it rest ih =>
    intro st h
    obtain ⟨p, rfl⟩ := h it (List.mem_cons_self _ _)
    simp only [consumeLoop]
    exact ih _ (fun it2 h2 => h it2 (List.mem_cons_of_mem _ h2))

/-- Processing one payload either leaves author_counts untouched or
performs exactly one single-increment defaultdict update; counts are
never decremented or removed. -/
theorem process_message_counts_shape (ext : External) (st : ConsumerState)
    (p : DecodedPayload) :
    (process_message ext st p).author_counts = st.author_counts ∨
    ∃ a, (process_message ext st p).author_counts
      = pyKeyUpdate st.author_counts a 0 (fun n => n + 1) := by
  cases p with
  | error e =>
    exact Or.inl (process_message_undecodable ext st (.error e)
      (by simp [isUndecodable])).1
  | ok v =>
    cases v with
    | jobj fields =>
      cases hs : ext.analyzeSentiment (pyGet fields "message" (JValue.jstr "")) with
      | error e =>
        exact Or.inl (process_message_scorefail ext st fields e hs).1
      | ok q =>
        by_cases ha : (pyGet fields "author" (JValue.jstr "unknown")).hashable = true
        · exact Or.inr ⟨pyGet fields "author" (JValue.jstr "unknown"),
            (process_message_ok ext st fields q hs ha).1⟩
        · rw [Bool.not_eq_true] at ha
          exact Or.inl (process_message_unhashable ext st fields q hs ha).1
    | jnull =>
      exact Or.inl (process_message_undecodable ext st (.ok .jnull)
        (by simp [isUndecodable])).1
    | jbool b =>
      exact Or.inl (process_message_undecodable ext st (.ok (.jbool b))
        (by simp [isUndecodable])).1
    | jnum n =>
      exact Or.inl (process_message_undecodable ext st (.ok (.jnum n))
        (by simp [isUndecodable])).1
    | jstr s =>
      exact Or.inl (process_message_undecodable ext st (.ok (.jstr s))
        (by simp [isUndecodable])).1
    | jarr xs =>
      exact Or.inl (process_message_undecodable ext st (.ok (.jarr xs))
        (by simp [isUndecodable])).1

/-- Claim C1: after processing any sequence of events (valid or
invalid), the two aggregate tables are key-synchronized: a key exists
in author_counts exactly when it exists in author_sentiments, and for
every such key the length of the sentiment list equals the count. -/
theorem claim_C1_tables_key_synchronized (ext : External)
    (ps : List DecodedPayload) :
    (∀ k, (pyKeyLookup (runEvents ext ps).author_counts k).isSome
        ↔ (pyKeyLookup (runEvents ext ps).author_sentiments k).isSome) ∧
    (∀ k n l, pyKeyLookup (runEvents ext ps).author_counts k = some n →
        pyKeyLookup (runEvents ext ps).author_sentiments k = some l →
        l.length = n) := by
  have h := stateInv_runEvents ext ps
  unfold StateInv TInv at h
  obtain ⟨h1, h2, h3⟩ := h
  constructor
  · intro k
    have h2k := h2 k
    cases hcs : pyKeyLookup (runEvents ext ps).author_sentiments k with
    | none =>
      rw [hcs] at h2k
      rw [← h2k]
      simp
    | some l =>
      rw [hcs] at h2k
      rw [← h2k]
      simp
  · intro k n l hc hsent
    have h2k := h2 k
    rw [hsent, hc] at h2k
    simpa using h2k

/-- Witness for C1 at a concrete run of one empty-dict event. -/
theorem claim_C1_witness :
    ((pyKeyLookup (runEvents trivialExt [Except.ok (JValue.jobj [])]).author_counts
        JValue.jnull).isSome
      ↔ (pyKeyLookup (runEvents trivialExt [Except.ok (JValue.jobj [])]).author_sentiments
        JValue.jnull).isSome) ∧
    List.length [(0 : ℚ)] = 1 :=
  ⟨(claim_C1_tables_key_synchronized trivialExt [Except.ok (JValue.jobj [])]).1
      JValue.jnull,
   (claim_C1_tables_key_synchronized trivialExt [Except.ok (JValue.jobj [])]).2
      (JValue.jstr "unknown") 1 [0] (by decide) (by decide)⟩

/-- Counterexample for C2 as frozen: the event {"author": []} is
decodable and dict-shaped, and the scorer is total, yet the program
raises TypeError at the table update and books nothing, so after this
one-event sequence the counts sum to 0, not 1. -/
theorem claim_C2_counterexample :
    isDictEvent (Except.ok (JValue.jobj [("author", JValue.jarr [])])) = true ∧
    ((runEvents trivialExt
        [Except.ok (JValue.jobj [("author", JValue.jarr [])])]).author_counts.map
      Prod.snd).sum = 0 ∧
    ((runEvents trivialExt
        [Except.ok (JValue.jobj [("author", JValue.jarr [])])]).author_counts.map
      Prod.snd).sum
      ≠ ([Except.ok (JValue.jobj [("author", JValue.jarr [])])] :
          List DecodedPayload).length := by
  refine ⟨rfl, by decide, by decide⟩

/-- Claim C2 as amended: for a sequence of N bookable events
(dict-shaped with a hashable author value) under a scorer that never
raises, the values of author_counts sum to N; and each single payload
either leaves the counts untouched or performs one single-increment
update, so counts never shrink.  The hashability restriction is forced
by the counterexample: a dict-shaped event whose author value is a
list or a dict raises TypeError and is skipped. -/
theorem claim_C2_count_sum_equals_events (ext : External)
    (ps : List DecodedPayload)
    (hscore : ∀ v, ∃ q, ext.analyzeSentiment v = Except.ok q)
    (hvalid : ∀ p ∈ ps, isBookableEvent p = true) :
    ((runEvents ext ps).author_counts.map Prod.snd).sum = ps.length ∧
    (∀ st p2, (process_message ext st p2).author_counts = st.author_counts ∨
      ∃ a, (process_message ext st p2).author_counts
        = pyKeyUpdate st.author_counts a 0 (fun n => n + 1)) := by
  constructor
  · have h := sum_processEvents ext ps hscore hvalid initState
    simpa [runEvents, initState] using h
  · intro st p2
    exact process_message_counts_shape ext st p2

/-- Witness for C2 at a concrete run of one bookable event. -/
theorem claim_C2_witness :
    ((runEvents trivialExt [Except.ok (JValue.jobj [])]).author_counts.map
      Prod.snd).sum = 1 :=
  (claim_C2_count_sum_equals_events trivialExt [Except.ok (JValue.jobj [])]
    (fun v => ⟨0, rfl⟩)
    (by intro p hp; simp only [List.mem_singleton] at hp; subst hp; rfl)).1

/-- Claim C3: an undecodable payload (json.loads raises, or the value
is not a dict) leaves both tables exactly as before, adds exactly one
error-level log entry, and triggers no render. -/
theorem claim_C3_undecodable_no_effect (ext : External) (st : ConsumerState)
    (p : DecodedPayload) (h : isUndecodable p = true) :
    (process_message ext st p).author_counts = st.author_counts ∧
    (process_message ext st p).author_sentiments = st.author_sentiments ∧
    errorLogCount (process_message ext st p).logs = errorLogCount st.logs + 1 ∧
    (process_message ext st p).renders = st.renders := by
  obtain ⟨h1, h2, h3, h4⟩ := process_message_undecodable ext st p h
  exact ⟨h1, h2, h4, h3⟩

/-- Witness for C3 at a concrete malformed payload. -/
theorem claim_C3_witness :
    (process_message trivialExt initState (Except.error ())).author_counts
      = initState.author_counts ∧
    (process_message trivialExt initState (Except.error ())).author_sentiments
      = initState.author_sentiments ∧
    errorLogCount (process_message trivialExt initState (Except.error ())).logs
      = errorLogCount initState.logs + 1 ∧
    (process_message trivialExt initState (Except.error ())).renders
      = initState.renders :=
  claim_C3_undecodable_no_effect trivialExt initState (Except.error ()) rfl

/-- Counterexample for C4 as frozen: the missing-message event
{"author": ["x"]} is not "still processed": its unhashable author
value raises TypeError at the table update, so the program logs one
error and updates no count. -/
theorem claim_C4_counterexample :
    pyLookup [("author", JValue.jarr [JValue.jstr "x"])] "message" = none ∧
    (process_message trivialExt initState
        (.ok (.jobj [("author", JValue.jarr [JValue.jstr "x"])]))).author_counts
      = initState.author_counts ∧
    errorLogCount (process_message trivialExt initState
        (.ok (.jobj [("author", JValue.jarr [JValue.jstr "x"])]))).logs
      = errorLogCount initState.logs + 1 := by
  refine ⟨by decide, by decide, by decide⟩

/-- Claim C4 as amended: an event whose dict has no author field is
booked under the reserved key "unknown" in both tables (no further
condition: "unknown" is hashable); an event whose dict has no message
field is scored on the empty string and, provided its author value is
hashable, is still processed with the author count updated as usual.
The hashability proviso on the second half is forced by the
counterexample: an unhashable author raises TypeError and the event is
skipped. -/
theorem claim_C4_missing_fields_defaulted (ext : External) :
    (∀ st fields q, pyLookup fields "author" = none →
      ext.analyzeSentiment (pyGet fields "message" (JValue.jstr "")) = Except.ok q →
      pyKeyLookup (process_message ext st (.ok (.jobj fields))).author_counts
          (JValue.jstr "unknown")
        = some (pyKeyGet st.author_counts (JValue.jstr "unknown") 0 + 1) ∧
      pyKeyLookup (process_message ext st (.ok (.jobj fields))).author_sentiments
          (JValue.jstr "unknown")
        = some (pyKeyGet st.author_sentiments (JValue.jstr "unknown") [] ++ [q])) ∧
    (∀ st fields q, pyLookup fields "message" = none →
      (pyGet fields "author" (JValue.jstr "unknown")).hashable = true →
      ext.analyzeSentiment (JValue.jstr "") = Except.ok q →
      (process_message ext st (.ok (.jobj fields))).author_counts
        = pyKeyUpdate st.author_counts (pyGet fields "author" (JValue.jstr "unknown"))
            0 (fun n => n + 1)) := by
  constructor
  · intro st fields q hauthor hs
    have ha : pyGet fields "author" (JValue.jstr "unknown") = JValue.jstr "unknown" :=
      pyGet_of_none _ _ _ hauthor
    have hok := process_message_ok ext st fields q hs (by rw [ha]; rfl)
    have href : pyKeyEq (JValue.jstr "unknown") (JValue.jstr "unknown") = true := by
      decide
    constructor
    · rw [hok.1, ha, pyKeyLookup_pyKeyUpdate_self _ _ _ _ href]
    · rw [hok.2, ha, pyKeyLookup_pyKeyUpdate_self _ _ _ _ href]
  · intro st fields q hmsg ha hs
    have hm : pyGet fields "message" (JValue.jstr "") = JValue.jstr "" :=
      pyGet_of_none _ _ _ hmsg
    exact (process_message_ok ext st fields q (by rw [hm]; exact hs) ha).1

/-- Witness for C4: one event with only a message field, one with only
a (hashable) author field. -/
theorem claim_C4_witness :
    (pyKeyLookup (process_message trivialExt initState
        (.ok (.jobj [("message", JValue.jstr "yo")]))).author_counts
        (JValue.jstr "unknown")
      = some (pyKeyGet initState.author_counts (JValue.jstr "unknown") 0 + 1) ∧
    pyKeyLookup (process_message trivialExt initState
        (.ok (.jobj [("message", JValue.jstr "yo")]))).author_sentiments
        (JValue.jstr "unknown")
      = some (pyKeyGet initState.author_sentiments (JValue.jstr "unknown") [] ++ [(0 : ℚ)])) ∧
    (process_message trivialExt initState
        (.ok (.jobj [("author", JValue.jstr "x")]))).author_counts
      = pyKeyUpdate initState.author_counts
          (pyGet [("author", JValue.jstr "x")] "author" (JValue.jstr "unknown"))
          0 (fun n => n + 1) :=
  ⟨(claim_C4_missing_fields_defaulted trivialExt).1 initState
      [("message", JValue.jstr "yo")] 0 (by decide) rfl,
   (claim_C4_missing_fields_defaulted trivialExt).2 initState
      [("author", JValue.jstr "x")] 0 (by decide) (by decide) rfl⟩

/-- Claim C5: the average sentiment computed for rendering is the
arithmetic mean of the recorded scores, and on the spec scenario
(authors a, b, a with scores 0.8, -0.6, 0.0) the final counts are
a: 2, b: 1 and the averages 0.4 for a and -0.6 for b; the last render
is the sentiment panel drawn from exactly those averages. -/
theorem claim_C5_average_sentiment_scenario :
    (runEvents demoExt demoEvents).author_counts
      = [(JValue.jstr "a", 2), (JValue.jstr "b", 1)] ∧
    (runEvents demoExt demoEvents).author_sentiments.map
        (fun kv => (kv.1, avgSentiment kv.2))
      = [(JValue.jstr "a", 2 / 5), (JValue.jstr "b", -(3 / 5))] ∧
    (runEvents demoExt demoEvents).renders.getLast?
      = some (RenderEvent.sentimentChart
          ((runEvents demoExt demoEvents).author_sentiments.map Prod.fst)
          ((runEvents demoExt demoEvents).author_sentiments.map
            (fun kv => avgSentiment kv.2))) := by
  refine ⟨by decide, ?_, rfl⟩
  have h : (runEvents demoExt demoEvents).author_sentiments
      = [(JValue.jstr "a", [4 / 5, 0]), (JValue.jstr "b", [-(3 / 5)])] := rfl
  rw [h]
  simp [avgSentiment]
  norm_num

/-- Claim C6: an exception inside the per-event work is recovered at
the per-event boundary with exactly the already-completed mutations
kept: a scorer failure leaves both tables untouched; after a
successful score on a hashable author both table updates are committed
whatever the chart backend then does (ext is arbitrary, so in
particular when rendering raises the updates are not rolled back); and
when the update itself raises (unhashable author) nothing was
committed, so both tables are untouched. -/
theorem claim_C6_partial_failure_semantics (ext : External) :
    (∀ st fields e,
      ext.analyzeSentiment (pyGet fields "message" (JValue.jstr "")) = Except.error e →
      (process_message ext st (.ok (.jobj fields))).author_counts = st.author_counts ∧
      (process_message ext st (.ok (.jobj fields))).author_sentiments
        = st.author_sentiments) ∧
    (∀ st fields q,
      ext.analyzeSentiment (pyGet fields "message" (JValue.jstr "")) = Except.ok q →
      (pyGet fields "author" (JValue.jstr "unknown")).hashable = true →
      (process_message ext st (.ok (.jobj fields))).author_counts
        = pyKeyUpdate st.author_counts (pyGet fields "author" (JValue.jstr "unknown"))
            0 (fun n => n + 1) ∧
      (process_message ext st (.ok (.jobj fields))).author_sentiments
        = pyKeyUpdate st.author_sentiments (pyGet fields "author" (JValue.jstr "unknown"))
            [] (fun l => l ++ [q])) ∧
    (∀ st fields q,
      ext.analyzeSentiment (pyGet fields "message" (JValue.jstr "")) = Except.ok q →
      (pyGet fields "author" (JValue.jstr "unknown")).hashable = false →
      (process_message ext st (.ok (.jobj fields))).author_counts = st.author_counts ∧
      (process_message ext st (.ok (.jobj fields))).author_sentiments
        = st.author_sentiments) := by
  refine ⟨?_, ?_, ?_⟩
  · intro st fields e hs
    have h := process_message_scorefail ext st fields e hs
    exact ⟨h.1, h.2.1⟩
  · intro st fields q hs ha
    exact process_message_ok ext st fields q hs ha
  · intro st fields q hs ha
    have h := process_message_unhashable ext st fields q hs ha
    exact ⟨h.1, h.2.1⟩

/-- Witness for C6: a failing scorer changes nothing; a failing
renderer keeps the committed table updates; an unhashable author
commits nothing. -/
theorem claim_C6_witness :
    ((process_message failScoreExt initState (.ok (.jobj []))).author_counts
        = initState.author_counts ∧
      (process_message failScoreExt initState (.ok (.jobj []))).author_sentiments
        = initState.author_sentiments) ∧
    ((process_message failRenderExt initState (.ok (.jobj []))).author_counts
        = pyKeyUpdate initState.author_counts
            (pyGet [] "author" (JValue.jstr "unknown")) 0 (fun n => n + 1) ∧
      (process_message failRenderExt initState (.ok (.jobj []))).author_sentiments
        = pyKeyUpdate initState.author_sentiments
            (pyGet [] "author" (JValue.jstr "unknown")) [] (fun l => l ++ [(0 : ℚ)])) ∧
    ((process_message trivialExt initState
        (.ok (.jobj [("author", JValue.jobj [])]))).author_counts
        = initState.author_counts ∧
      (process_message trivialExt initState
          (.ok (.jobj [("author", JValue.jobj [])]))).author_sentiments
        = initState.author_sentiments) :=
  ⟨(claim_C6_partial_failure_semantics failScoreExt).1 initState [] () rfl,
   (claim_C6_partial_failure_semantics failRenderExt).2.1 initState [] 0 rfl rfl,
   (claim_C6_partial_failure_semantics trivialExt).2.2 initState
     [("author", JValue.jobj [])] 0 rfl (by decide)⟩

/-- Claim C7: no per-event error terminates the polling loop: a stream
made only of payloads (however malformed, unhashable authors included,
and under any scorer or backend) exits normally, and on every exit
path the finally block has closed the Kafka consumer. -/
theorem claim_C7_loop_survives_and_closes (ext : External)
    (stream : List StreamItem) :
    (mainLoop ext stream).consumerClosed = true ∧
    ((∀ it ∈ stream, ∃ p, it = StreamItem.payload p) →
      (mainLoop ext stream).exitKind = ExitKind.normal) := by
  constructor
  · rfl
  · intro h
    have hn := consumeLoop_normal ext stream initState h
    simpa [mainLoop] using hn

/-- Witness for C7: a one-payload stream whose only event is malformed
and whose backend always raises still exits normally, consumer
closed. -/
theorem claim_C7_witness :
    (mainLoop failRenderExt [StreamItem.payload (Except.error ())]).consumerClosed
      = true ∧
    (mainLoop failRenderExt [StreamItem.payload (Except.error ())]).exitKind
      = ExitKind.normal :=
  ⟨(claim_C7_loop_survives_and_closes failRenderExt
      [StreamItem.payload (Except.error ())]).1,
   (claim_C7_loop_survives_and_closes failRenderExt
      [StreamItem.payload (Except.error ())]).2
     (by intro it h; simp only [List.mem_singleton] at h; exact ⟨_, h⟩)⟩

/-- Claim C8: list(author_counts.keys()), the key sequence drawn by
update_chart, is exactly the first-appearance order of the authors of
the booked events under Python key equality (later increments never
reorder it), and update_sentiment_chart draws the same key set in the
same order. -/
theorem claim_C8_key_order_first_appearance (ext : External)
    (ps : List DecodedPayload) :
    (runEvents ext ps).author_counts.map Prod.fst
      = firstSeen (ps.filterMap (eventAuthor ext)) ∧
    (runEvents ext ps).author_sentiments.map Prod.fst
      = (runEvents ext ps).author_counts.map Prod.fst := by
  constructor
  · have h := keys_processEvents ext ps initState
    simpa [runEvents, initState, firstSeen] using h
  · have h := stateInv_runEvents ext ps
    unfold StateInv TInv at h
    exact h.1.symm

/-- Claim C9: in every reachable state each sentiment list is
nonempty, so the division by len(scores) in update_sentiment_chart is
never by zero. -/
theorem claim_C9_sentiment_lists_nonempty (ext : External)
    (ps : List DecodedPayload) :
    ∀ kl ∈ (runEvents ext ps).author_sentiments,
      kl.2 ≠ ([] : List ℚ) ∧ (kl.2.length : ℚ) ≠ 0 := by
  intro kl hkl
  have h := stateInv_runEvents ext ps
  unfold StateInv TInv at h
  have hne := h.2.2 kl hkl
  refine ⟨hne, ?_⟩
  have hlen : kl.2.length ≠ 0 := by
    intro h0
    exact hne (List.eq_nil_of_length_eq_zero h0)
  exact_mod_cast hlen

/-- Witness for C9 at the state reached by one empty-dict event. -/
theorem claim_C9_witness :
    (JValue.jstr "unknown", [(0 : ℚ)]).2 ≠ ([] : List ℚ) ∧
    (((JValue.jstr "unknown", [(0 : ℚ)]).2.length : ℚ) ≠ 0) :=
  claim_C9_sentiment_lists_nonempty trivialExt [Except.ok (JValue.jobj [])]
    (JValue.jstr "unknown", [0]) (by decide)

/-- Counterexample for C10 as frozen: the event with a present author
field holding the list ["x"] creates no table key at all: hash()
raises TypeError and the program skips the event, so no value is "used
verbatim as the table key". -/
theorem claim_C10_counterexample :
    pyLookup [("author", JValue.jarr [JValue.jstr "x"]),
        ("message", JValue.jstr "hi")] "author"
      = some (JValue.jarr [JValue.jstr "x"]) ∧
    (process_message trivialExt initState
        (.ok (.jobj [("author", JValue.jarr [JValue.jstr "x"]),
          ("message", JValue.jstr "hi")]))).author_counts = [] := by
  refine ⟨by decide, by decide⟩

/-- Claim C10 as amended: the "unknown" fallback fires only when the
author field is absent; a present hashable author value (null, bool,
number or string) is used verbatim as the dict key probe of both
updates, so {"author": null} creates and increments a key distinct
from "unknown"; a present list or dict author value raises TypeError
and creates no key.  The hashability split is forced by the
counterexample. -/
theorem claim_C10_author_value_used_verbatim (ext : External) :
    (∀ st fields v q, pyLookup fields "author" = some v →
      v.hashable = true →
      ext.analyzeSentiment (pyGet fields "message" (JValue.jstr "")) = Except.ok q →
      (process_message ext st (.ok (.jobj fields))).author_counts
        = pyKeyUpdate st.author_counts v 0 (fun n => n + 1) ∧
      (process_message ext st (.ok (.jobj fields))).author_sentiments
        = pyKeyUpdate st.author_sentiments v [] (fun l => l ++ [q])) ∧
    (∀ st fields v q, pyLookup fields "author" = some v →
      v.hashable = false →
      ext.analyzeSentiment (pyGet fields "message" (JValue.jstr "")) = Except.ok q →
      (process_message ext st (.ok (.jobj fields))).author_counts = st.author_counts ∧
      (process_message ext st (.ok (.jobj fields))).author_sentiments
        = st.author_sentiments) := by
  constructor
  · intro st fields v q hv hh hs
    have hok := process_message_ok ext st fields q hs
      (by rw [pyGet_of_some _ _ _ _ hv]; exact hh)
    rw [pyGet_of_some _ _ _ _ hv] at hok
    exact hok
  · intro st fields v q hv hh hs
    have h := process_message_unhashable ext st fields q hs
      (by rw [pyGet_of_some _ _ _ _ hv]; exact hh)
    exact ⟨h.1, h.2.1⟩

/-- Witness for C10: the event with author null and message "hi"
creates and increments the key null, distinct from "unknown"; the
event with author ["x"] creates nothing. -/
theorem claim_C10_witness :
    ((process_message trivialExt initState
        (.ok (.jobj [("author", JValue.jnull), ("message", JValue.jstr "hi")]))).author_counts
      = [(JValue.jnull, 1)] ∧
    pyKeyLookup (process_message trivialExt initState
        (.ok (.jobj [("author", JValue.jnull), ("message", JValue.jstr "hi")]))).author_counts
        (JValue.jstr "unknown") = none) ∧
    (process_message trivialExt initState
        (.ok (.jobj [("author", JValue.jarr [JValue.jstr "x"]),
          ("message", JValue.jstr "hi")]))).author_counts = [] := by
  have h1 := (claim_C10_author_value_used_verbatim trivialExt).1 initState
      [("author", JValue.jnull), ("message", JValue.jstr "hi")] JValue.jnull 0
      (by decide) rfl rfl
  have h2 := (claim_C10_author_value_used_verbatim trivialExt).2 initState
      [("author", JValue.jarr [JValue.jstr "x"]), ("message", JValue.jstr "hi")]
      (JValue.jarr [JValue.jstr "x"]) 0 (by decide) rfl rfl
  refine ⟨⟨?_, ?_⟩, ?_⟩
  · rw [h1.1]; decide
  · rw [h1.1]; decide
  · rw [h2.1]; decide
